import Mathlib

/-!
Verification of the batch grading orchestrator of the ElecTestSystem
Google-Apps-Script backend (`src/gas_dist/Code.js`), a shallow embedding of
the functions `_gradeWithGemini` (flattening, chunking, dispatch loop,
reconciliation, mock mode) and `_callGeminiApi` (retry/backoff loop and the
JSON recovery chain for model output).

Conventions of the embedding:
* JavaScript numbers that originate from JSON or arithmetic on scores/points
  are modelled as rationals (`ℚ`); `Math.floor` is `Rat.floor`.
* JSON values are the inductive `Json` below; `JSON.parse` is modelled by the
  executable parser `jsParse`, which implements the strict JSON grammar
  (strings with the standard escapes, strict number syntax, arrays, objects,
  literals).  Engine-specific error *messages* of thrown `SyntaxError` /
  `TypeError` exceptions are not observable in the source beyond being
  concatenated into a fallback reason, and are modelled by fixed placeholder
  strings.
* Exceptions are `Except` values; the HTTP transport (`UrlFetchApp.fetch`)
  is an oracle parameter giving, per attempt, either a thrown transport
  error or a response (status code and body text).
* `Utilities.sleep` and each `UrlFetchApp.fetch` call are recorded in an
  explicit event trace so that scheduling claims (serial vs. concurrent
  dispatch, "no network call") can be stated.
-/

namespace ElecTest

/-! ## JSON values -/

/-- JSON values, as produced by `JSON.parse`. -/
inductive Json where
  | null
  | bool (b : Bool)
  | num (q : ℚ)
  | str (s : String)
  | arr (elems : List Json)
  | obj (fields : List (String × Json))

/-! ## A model of `JSON.parse`

A strict recursive-descent JSON parser over `List Char`, fuelled (the fuel
`2 * length + 2` dominates the recursion depth, which consumes at least one
character every two steps). -/

/-- JSON whitespace characters. -/
def isJsonWs (c : Char) : Bool :=
  c = ' ' || c = '\t' || c = '\n' || c = '\r'

/-- Skip JSON whitespace. -/
def skipWs (cs : List Char) : List Char := cs.dropWhile isJsonWs

/-- Value of one hexadecimal digit. -/
def hexVal (c : Char) : Option ℕ :=
  if '0' ≤ c ∧ c ≤ '9' then some (c.toNat - '0'.toNat)
  else if 'a' ≤ c ∧ c ≤ 'f' then some (c.toNat - 'a'.toNat + 10)
  else if 'A' ≤ c ∧ c ≤ 'F' then some (c.toNat - 'A'.toNat + 10)
  else none

/-- Single-character JSON escapes (`\u` is handled separately). -/
def escChar (e : Char) : Option Char :=
  if e = '"' then some '"'
  else if e = '\\' then some '\\'
  else if e = '/' then some '/'
  else if e = 'b' then some (Char.ofNat 8)
  else if e = 'f' then some (Char.ofNat 12)
  else if e = 'n' then some '\n'
  else if e = 'r' then some (Char.ofNat 13)
  else if e = 't' then some '\t'
  else none

/-- Parse the body of a JSON string after the opening quote; returns the
decoded characters and the remainder after the closing quote. -/
def parseStringBody : List Char → Option (List Char × List Char)
  | [] => none
  | '"' :: cs => some ([], cs)
  | '\\' :: 'u' :: h1 :: h2 :: h3 :: h4 :: cs =>
    match hexVal h1, hexVal h2, hexVal h3, hexVal h4 with
    | some a, some b, some c, some d =>
      (parseStringBody cs).map fun (s, r) =>
        (Char.ofNat (((a * 16 + b) * 16 + c) * 16 + d) :: s, r)
    | _, _, _, _ => none
  | '\\' :: e :: cs =>
    match escChar e with
    | some ch => (parseStringBody cs).map fun (s, r) => (ch :: s, r)
    | none => none
  | c :: cs =>
    if c.toNat < 32 then none
    else (parseStringBody cs).map fun (s, r) => (c :: s, r)

/-- Decimal value of a digit list. -/
def digitsVal (ds : List Char) : ℕ :=
  ds.foldl (fun acc c => 10 * acc + (c.toNat - '0'.toNat)) 0

/-- `10 ^ e` as a rational, for a signed exponent. -/
def pow10 (e : ℤ) : ℚ :=
  if 0 ≤ e then ((10 : ℚ) ^ e.toNat) else 1 / ((10 : ℚ) ^ (-e).toNat)

/-- Parse a JSON number (strict grammar:
`-? (0 | [1-9][0-9]*) (. [0-9]+)? ([eE][+-]?[0-9]+)?`). -/
def parseNumber (cs : List Char) : Option (ℚ × List Char) :=
  let (neg, cs1) :=
    match cs with
    | '-' :: r => (true, r)
    | _ => (false, cs)
  let intPart : Option (ℕ × List Char) :=
    match cs1 with
    | '0' :: r => if (r.head?.elim false Char.isDigit) then none else some (0, r)
    | r =>
      let ds := r.takeWhile Char.isDigit
      if ds.isEmpty then none else some (digitsVal ds, r.dropWhile Char.isDigit)
  match intPart with
  | none => none
  | some (ip, r2) =>
    let fracPart : Option (ℚ × List Char) :=
      match r2 with
      | '.' :: r3 =>
        let ds := r3.takeWhile Char.isDigit
        if ds.isEmpty then none
        else some ((digitsVal ds : ℚ) / (10 : ℚ) ^ ds.length, r3.dropWhile Char.isDigit)
      | r3 => some (0, r3)
    match fracPart with
    | none => none
    | some (fp, r4) =>
      let expPart : Option (ℤ × List Char) :=
        match r4 with
        | 'e' :: r5 | 'E' :: r5 =>
          let (esign, r6) :=
            match r5 with
            | '+' :: r7 => ((1 : ℤ), r7)
            | '-' :: r7 => ((-1 : ℤ), r7)
            | r7 => ((1 : ℤ), r7)
          let ds := r6.takeWhile Char.isDigit
          if ds.isEmpty then none
          else some (esign * (digitsVal ds : ℤ), r6.dropWhile Char.isDigit)
        | r5 => some (0, r5)
      match expPart with
      | none => none
      | some (ep, r8) =>
        let mag : ℚ := ((ip : ℚ) + fp) * pow10 ep
        some (if neg then -mag else mag, r8)

mutual

/-- Parse one JSON value (after optional leading whitespace). -/
def parseValue : ℕ → List Char → Option (Json × List Char)
  | 0, _ => none
  | fuel + 1, cs =>
    match skipWs cs with
    | '"' :: r => (parseStringBody r).map fun (s, rest) => (Json.str (String.mk s), rest)
    | '[' :: r =>
      (match skipWs r with
       | ']' :: r2 => some (Json.arr [], r2)
       | _ => (parseElems fuel r).map fun (xs, rest) => (Json.arr xs, rest))
    | '{' :: r =>
      (match skipWs r with
       | '}' :: r2 => some (Json.obj [], r2)
       | _ => (parseMembers fuel r).map fun (fs, rest) => (Json.obj fs, rest))
    | 't' :: 'r' :: 'u' :: 'e' :: r => some (Json.bool true, r)
    | 'f' :: 'a' :: 'l' :: 's' :: 'e' :: r => some (Json.bool false, r)
    | 'n' :: 'u' :: 'l' :: 'l' :: r => some (Json.null, r)
    | l => (parseNumber l).map fun (q, rest) => (Json.num q, rest)

/-- Parse the comma-separated elements of a non-empty JSON array, up to and
including the closing bracket. -/
def parseElems : ℕ → List Char → Option (List Json × List Char)
  | 0, _ => none
  | fuel + 1, cs => do
    let (v, r) ← parseValue fuel cs
    match skipWs r with
    | ',' :: r2 => (parseElems fuel r2).map fun (xs, rest) => (v :: xs, rest)
    | ']' :: r2 => some ([v], r2)
    | _ => none

/-- Parse the members of a non-empty JSON object, up to and including the
closing brace. -/
def parseMembers : ℕ → List Char → Option (List (String × Json) × List Char)
  | 0, _ => none
  | fuel + 1, cs =>
    match skipWs cs with
    | '"' :: r => do
      let (k, r1) ← parseStringBody r
      match skipWs r1 with
      | ':' :: r2 => do
        let (v, r3) ← parseValue fuel r2
        match skipWs r3 with
        | ',' :: r4 => (parseMembers fuel r4).map fun (fs, rest) => ((String.mk k, v) :: fs, rest)
        | '}' :: r4 => some ([(String.mk k, v)], r4)
        | _ => none
      | _ => none
    | _ => none

end

/-- Model of `JSON.parse`: `none` models a thrown `SyntaxError`. -/
def jsParse (s : String) : Option Json :=
  match parseValue (2 * s.length + 2) s.data with
  | some (v, r) => if skipWs r = [] then some v else none
  | none => none

/-! ## JavaScript value semantics

Helpers modelling the JavaScript coercions the source relies on.  An absent
value (`undefined`) is modelled as `Option.none` at the use sites. -/

/-- JavaScript falsiness of a JSON value (`!v`): `null`, `false`, `0` and
`""` are falsy; arrays and objects are always truthy. -/
def jsFalsy : Json → Bool
  | Json.null => true
  | Json.bool b => !b
  | Json.num q => q = 0
  | Json.str s => s = ""
  | Json.arr _ => false
  | Json.obj _ => false

/-- Property lookup on a parsed-JSON object field list.  `JSON.parse` keeps
the last of duplicate keys, hence the reverse. -/
def lookupField (fs : List (String × Json)) (k : String) : Option Json :=
  fs.reverse.lookup k

/-- `v.prop` member access on a possibly-`undefined` JavaScript value:
accessing a property of `undefined` or `null` throws a `TypeError`
(`Except.error`); on non-objects the named property is `undefined` (the
handful of built-in properties such as `.length` are modelled where the
source uses them). -/
def jsGet (v : Option Json) (k : String) : Except Unit (Option Json) :=
  match v with
  | none => Except.error ()
  | some Json.null => Except.error ()
  | some (Json.obj fs) => Except.ok (lookupField fs k)
  | some _ => Except.ok none

/-- `v[i]` element access with a numeric index, for the same cases. -/
def jsAt (v : Option Json) (i : ℕ) : Except Unit (Option Json) :=
  match v with
  | none => Except.error ()
  | some Json.null => Except.error ()
  | some (Json.arr xs) => Except.ok (xs.get? i)
  | some (Json.str s) => Except.ok ((s.data.get? i).map fun c => Json.str (String.mk [c]))
  | some (Json.obj fs) => Except.ok (lookupField fs (toString i))
  | some _ => Except.ok none

/-- `.length` of a JavaScript value where it exists (arrays and strings);
`undefined` otherwise. -/
def jsLength : Json → Option ℕ
  | Json.arr xs => some xs.length
  | Json.str s => some s.length
  | _ => none

/-- `Number(string)`: trimmed empty string is `0`; otherwise an optionally
signed decimal numeral (integer or fraction).  (`NaN` is `none`.  Hexadecimal
and `Infinity` forms, and exponents, are not modelled.) -/
def strToNumber (s : String) : Option ℚ :=
  let cs := s.trim.data
  if cs.isEmpty then some 0
  else
    let (neg, cs1) :=
      match cs with
      | '-' :: r => (true, r)
      | '+' :: r => (false, r)
      | _ => (false, cs)
    let ds := cs1.takeWhile Char.isDigit
    let rest := cs1.dropWhile Char.isDigit
    let frac : Option (ℚ × List Char) :=
      match rest with
      | '.' :: r =>
        let fs := r.takeWhile Char.isDigit
        some ((digitsVal fs : ℚ) / (10 : ℚ) ^ fs.length, r.dropWhile Char.isDigit)
      | r => some (0, r)
    match frac with
    | some (f, []) =>
      if ds.isEmpty ∧ f = 0 ∧ rest = cs1 then none
      else
        let mag : ℚ := (digitsVal ds : ℚ) + f
        some (if neg then -mag else mag)
    | _ => none

/-- `Number(v)` for a JSON value (`none` is `NaN`).  (`Number` of a
one-element array coerces through its string form; only the numeric-element
case is modelled, other arrays and objects are `NaN`.) -/
def jsToNumber : Json → Option ℚ
  | Json.null => some 0
  | Json.bool b => some (if b then 1 else 0)
  | Json.num q => some q
  | Json.str s => strToNumber s
  | Json.arr [] => some 0
  | Json.arr [Json.num q] => some q
  | Json.arr _ => none
  | Json.obj _ => none

/-- `Number(v) || 0` on a possibly-`undefined` value: `NaN` (and `0` itself)
collapse to `0`. -/
def jsNumberOr0 (v : Option Json) : ℚ :=
  match v with
  | none => 0
  | some w => (jsToNumber w).getD 0

/-- `v || ""` on a possibly-`undefined` value: falsy values collapse to the
empty string. -/
def jsOrEmptyStr (v : Option Json) : Json :=
  match v with
  | none => Json.str ""
  | some w => if jsFalsy w then Json.str "" else w

/-! ## Response extractor (`_callGeminiApi`, 200 branch)

Models lines 561–584 of `Code.js`: strip markdown fences, attempt a direct
`JSON.parse`, and on failure reparse the outermost bracketed substring after
doubling every backslash. -/

/-- Fence stripping and trim:
`text.replace(/` ```json `/g, '').replace(/` ``` `/g, '').trim()`. -/
def stripFences (text : String) : String :=
  ((text.replace "```json" "").replace "```" "").trim

/-- The regex `/\[[\s\S]*\]/` (resp. `/\{[\s\S]*\}/`): greedy match from the
first opening bracket to the last closing bracket after it. -/
def regexOuter (op cl : Char) (cs : List Char) : Option (List Char) :=
  match cs.findIdx? (· = op), (cs.reverse.findIdx? (· = cl)) with
  | some i, some jrev =>
    let j := cs.length - 1 - jrev
    if i < j then some ((cs.drop i).take (j - i + 1)) else none
  | _, _ => none

/-- `jsonStr.match(/\[[\s\S]*\]/) || jsonStr.match(/\{[\s\S]*\}/)`. -/
def bracketMatch (s : String) : Option String :=
  match regexOuter '[' ']' s.data with
  | some cs => some (String.mk cs)
  | none =>
    match regexOuter '{' '}' s.data with
    | some cs => some (String.mk cs)
    | none => none

/-- `str.replace(/\\/g, '\\\\')`: double every backslash character. -/
def doubleBackslashes (s : String) : String :=
  String.mk (s.data.flatMap fun c => if c = '\\' then ['\\', '\\'] else [c])

/-- The recovery chain applied to the model candidate text (lines 569–584):
fence-strip and trim, attempt `JSON.parse`; on failure, reparse the outermost
bracketed substring with every backslash doubled; `none` models rethrowing
the original parse error. -/
def extractFromText (text : String) : Option Json :=
  let jsonStr := stripFences text
  match jsParse jsonStr with
  | some v => some v
  | none =>
    match bracketMatch jsonStr with
    | some sub =>
      match jsParse (doubleBackslashes sub) with
      | some v => some v
      | none => none
    | none => none

/-! ## `_callGeminiApi`: outcomes, 200 handling, retry loop -/

/-- The possible results of one `_callGeminiApi` invocation, as seen by the
caller: a parsed value, or one of the distinct thrown failures (transport
error rethrown on exhaustion; `リトライ上限到達` error on HTTP retry
exhaustion; plain `API Error` on a non-retryable status; `No candidates`;
a propagated `SyntaxError` from `JSON.parse`; a `TypeError` from property
access). -/
inductive ApiOutcome where
  | ok (v : Json)
  | transportFail (msg : String)
  | retryExhausted (code : ℕ) (body : String)
  | httpFail (code : ℕ) (body : String)
  | noCandidates (body : String)
  | parseFail
  | typeError

/-- The HTTP 200 branch (lines 561–584): parse the response body, require a
non-empty `candidates` array, take `candidates[0].content.parts[0].text`,
and run the extraction chain on it. -/
def handle200 (body : String) : ApiOutcome :=
  match jsParse body with
  | none => ApiOutcome.parseFail
  | some data =>
    match jsGet (some data) "candidates" with
    | Except.error _ => ApiOutcome.typeError
    | Except.ok cand? =>
      match cand? with
      | none => ApiOutcome.noCandidates body
      | some cand =>
        if jsFalsy cand then ApiOutcome.noCandidates body
        else if jsLength cand = some 0 then ApiOutcome.noCandidates body
        else
          match (do
              let c0 ← jsAt (some cand) 0
              let content ← jsGet c0 "content"
              let parts ← jsGet content "parts"
              let p0 ← jsAt parts 0
              jsGet p0 "text" : Except Unit (Option Json)) with
          | Except.error _ => ApiOutcome.typeError
          | Except.ok textv =>
            match textv with
            | some (Json.str t) =>
              (match extractFromText t with
               | some v => ApiOutcome.ok v
               | none => ApiOutcome.parseFail)
            | _ => ApiOutcome.typeError

/-- The result of one `UrlFetchApp.fetch` attempt: a thrown transport error,
or an HTTP response (status code and body text). -/
inductive FetchResult where
  | err (msg : String)
  | resp (code : ℕ) (body : String)

/-- `MAX_RETRIES` (line 540). -/
def MAX_RETRIES : ℕ := 3

/-- The retry loop of `_callGeminiApi` (lines 544–601), with the transport
as an oracle from attempt number (= current `retryCount`) to fetch result.
Returns the outcome together with the list of backoff sleeps (milliseconds)
performed, in order.  The loop body runs at most `MAX_RETRIES + 1` times
(`retryCount` strictly increases and is capped), so the structural `fuel`
argument, invoked with `MAX_RETRIES + 1`, never reaches the unreachable
base case. -/
def callGeminiApiGo (fetch : ℕ → FetchResult) : ℕ → ℕ → ApiOutcome × List ℕ
  | 0, _ => (ApiOutcome.transportFail "unreachable", [])
  | fuel + 1, retryCount =>
    match fetch retryCount with
    | FetchResult.err msg =>
      if retryCount ≥ MAX_RETRIES then (ApiOutcome.transportFail msg, [])
      else
        let rest := callGeminiApiGo fetch fuel (retryCount + 1)
        (rest.1, 2 ^ (retryCount + 1) * 1000 :: rest.2)
    | FetchResult.resp code body =>
      if code = 200 then (handle200 body, [])
      else if code = 429 ∨ (500 ≤ code ∧ code < 600) then
        if retryCount ≥ MAX_RETRIES then (ApiOutcome.retryExhausted code body, [])
        else
          let rest := callGeminiApiGo fetch fuel (retryCount + 1)
          (rest.1, 2 ^ (retryCount + 1) * 1000 :: rest.2)
      else (ApiOutcome.httpFail code body, [])

/-- One `_callGeminiApi` call: the loop started at `retryCount = 0`. -/
def callGeminiApi (fetch : ℕ → FetchResult) : ApiOutcome × List ℕ :=
  callGeminiApiGo fetch (MAX_RETRIES + 1) 0

/-! ## Data model of `_gradeWithGemini` -/

/-- A sub-question (`sq`): id, text, points, optional criteria.  Absent or
empty criteria are both falsy in `sq.criteria || '特になし'`, so criteria is
a `String` with `""` standing for the absent field. -/
structure SubQuestion where
  id : String
  text : String
  points : ℚ
  criteria : String

/-- A question (`q`).  `q.subQuestions && q.subQuestions.length > 0` treats
an absent list and `[]` alike, so `subQuestions` is a plain list. -/
structure Question where
  id : String
  text : String
  points : ℚ
  criteria : String
  subQuestions : List SubQuestion

/-- A value of the caller-supplied `answers` object: for a plain question a
string, for a question with sub-questions an object mapping sub-question id
to answer text. -/
inductive AnswerVal where
  | str (s : String)
  | map (m : List (String × String))

/-- The `answers` argument: a JavaScript object keyed by question id. -/
abbrev AnswerSet := List (String × AnswerVal)

/-- `answers[qId]` (`undefined` when missing). -/
def lookupAnswer (answers : AnswerSet) (qId : String) : Option AnswerVal :=
  List.lookup qId answers

/-- `(answers[q.id] && answers[q.id][sq.id]) || ""` (line 410): missing
outer key, falsy outer value, a non-object outer value, or a missing inner
key all degrade to `""`. -/
def subAnswer (answers : AnswerSet) (qId sqId : String) : String :=
  match lookupAnswer answers qId with
  | none => ""
  | some (AnswerVal.str _) => ""
  | some (AnswerVal.map m) => (List.lookup sqId m).getD ""

/-- An entry of `problemList` (lines 403–422). -/
structure GradableItem where
  type : String
  qId : String
  sqId : Option String
  text : String
  points : ℚ
  criteria : String
  studentAnswer : AnswerVal

/-- `x || '特になし'` for the criteria fields. -/
def criteriaOr (s : String) : String :=
  if s = "" then "特になし" else s

/-- The flattener (lines 399–424): one item per sub-question when any exist,
else one item for the question itself; answers degrade to `""` when missing.
Totality of this definition is the "never raises" behaviour of the source
(all accesses are guarded). -/
def flattenProblems (questions : List Question) (answers : AnswerSet) : List GradableItem :=
  questions.flatMap fun q =>
    if q.subQuestions.length > 0 then
      q.subQuestions.map fun sq =>
        { type := "sub"
          qId := q.id
          sqId := some sq.id
          text := "[親問題]: " ++ q.text ++ "\n[小問題]: " ++ sq.text
          points := sq.points
          criteria := criteriaOr sq.criteria
          studentAnswer := AnswerVal.str (subAnswer answers q.id sq.id) }
    else
      [{ type := "normal"
         qId := q.id
         sqId := none
         text := q.text
         points := q.points
         criteria := criteriaOr q.criteria
         studentAnswer := (lookupAnswer answers q.id).getD (AnswerVal.str "") }]

/-- A `GradingResult` as produced by `_gradeWithGemini` (`reason` is stored
uncoerced, hence a JSON value). -/
structure GradingResult where
  questionId : String
  subQuestionId : Option String
  score : ℚ
  reason : Json

/-- The mock-grading path (lines 379–396), taken when no API key is
configured. -/
def mockResults (questions : List Question) : List GradingResult :=
  questions.flatMap fun q =>
    if q.subQuestions.length > 0 then
      q.subQuestions.map fun sq =>
        { questionId := q.id
          subQuestionId := some sq.id
          score := (Rat.floor (sq.points * 0.8) : ℚ)
          reason := Json.str "(Mock) Sub-question graded." }
    else
      [{ questionId := q.id
         subQuestionId := none
         score := (Rat.floor (q.points * 0.8) : ℚ)
         reason := Json.str "(Mock) Graded." }]

/-- `CHUNK_SIZE` (line 429). -/
def CHUNK_SIZE : ℕ := 5

/-- The chunking loop `for (i = 0; i < length; i += n) slice(i, i + n)`
(lines 433–434), via a structural fuel that bounds the iteration count
(each iteration removes at least one element when `0 < n`). -/
def chunkAux {α : Type} (n : ℕ) : ℕ → List α → List (List α)
  | 0, _ => []
  | _, [] => []
  | fuel + 1, l => l.take n :: chunkAux n fuel (l.drop n)

/-- All chunks of `l` of size `n` (the source uses `n = CHUNK_SIZE = 5`). -/
def chunksN {α : Type} (n : ℕ) (l : List α) : List (List α) :=
  chunkAux n l.length l

/-! ## Result reconciliation (lines 480–513) -/

/-- `aiResponse` normalisation (lines 480–485): an array is used as is, any
other value is wrapped as a one-element array. -/
def toResultArray (v : Json) : List Json :=
  match v with
  | Json.arr xs => xs
  | w => [w]

/-- One step of the mapping at lines 488–499 on a raw result `r`:
`null` when the index is missing, non-numeric or out of range (dropped by
`.filter(Boolean)`); a `TypeError` (`Except.error`) when `r` is `null` or
the in-range index is not an integer (`chunk[idx]` is then `undefined` and
`.qId` throws); otherwise the mapped `GradingResult`. -/
def mapRaw (chunk : List GradableItem) (r : Json) : Except Unit (Option GradingResult) := do
  let idx? ← jsGet (some r) "index"
  match idx? with
  | some (Json.num q) =>
    if q < 0 ∨ (chunk.length : ℚ) ≤ q then pure none
    else if q.den = 1 then
      match chunk[q.num.toNat]? with
      | some originalParam => do
        let score? ← jsGet (some r) "score"
        let reason? ← jsGet (some r) "reason"
        pure (some
          { questionId := originalParam.qId
            subQuestionId := originalParam.sqId
            score := jsNumberOr0 score?
            reason := jsOrEmptyStr reason? })
      | none => Except.error ()
    else Except.error ()
  | _ => pure none

/-- Sequential mapping of `chunkResults` through `mapRaw` (the JavaScript
`Array.prototype.map` callback runs left to right and a thrown `TypeError`
aborts the whole loop). -/
def mapChunkGo (chunk : List GradableItem) : List Json → Except Unit (List (Option GradingResult))
  | [] => Except.ok []
  | r :: rs => do
    let o ← mapRaw chunk r
    let os ← mapChunkGo chunk rs
    pure (o :: os)

/-- `chunkResults.map(...).filter(Boolean)` (lines 488–500): all raw results
are mapped (a thrown `TypeError` aborts the whole chunk), then the `null`
placeholders are dropped. -/
def mapChunk (chunk : List GradableItem) (rs : List Json) :
    Except Unit (List GradingResult) :=
  (mapChunkGo chunk rs).map fun l => l.filterMap id

/-- The per-chunk zero-score fallback (lines 507–512). -/
def fallbackChunk (chunk : List GradableItem) (msg : String) : List GradingResult :=
  chunk.map fun p =>
    { questionId := p.qId
      subQuestionId := p.sqId
      score := 0
      reason := Json.str ("採点システムエラー: " ++ msg) }

/-- `apiError.message` for each modelled exception (engine-generated
`SyntaxError`/`TypeError` message texts are placeholders). -/
def errMessage : ApiOutcome → String
  | ApiOutcome.ok _ => ""
  | ApiOutcome.transportFail m => m
  | ApiOutcome.retryExhausted c b => "API Error (" ++ toString c ++ ") リトライ上限到達: " ++ b
  | ApiOutcome.httpFail c b => "API Error (" ++ toString c ++ "): " ++ b
  | ApiOutcome.noCandidates b => "No candidates returned. Response: " ++ b
  | ApiOutcome.parseFail => "SyntaxError"
  | ApiOutcome.typeError => "TypeError"

/-- The body of the `try`/`catch` per chunk (lines 473–514) after the API
call's outcome is known: on a successful parse, map and filter; any thrown
error (from the call or from the mapping) is caught and the chunk is filled
with the zero-score fallback. -/
def interpretOutcome (chunk : List GradableItem) (o : ApiOutcome) : List GradingResult :=
  match o with
  | ApiOutcome.ok v =>
    match mapChunk chunk (toResultArray v) with
    | Except.ok mapped => mapped
    | Except.error _ => fallbackChunk chunk (errMessage ApiOutcome.typeError)
  | o => fallbackChunk chunk (errMessage o)

/-! ## The chunk-processing loop and its event trace -/

/-- Observable scheduling events of one `_gradeWithGemini` run: the
inter-chunk `Utilities.sleep(1000)` (line 475), each `UrlFetchApp.fetch`
issue and its synchronous completion, and each retry backoff sleep.  All
carry the chunk index they belong to. -/
inductive Event where
  | sleep (chunk : ℕ) (ms : ℕ)
  | request (chunk : ℕ) (attempt : ℕ)
  | outcome (chunk : ℕ) (attempt : ℕ)

/-- The chunk index an event belongs to. -/
def Event.chunkIdx : Event → ℕ
  | Event.sleep c _ => c
  | Event.request c _ => c
  | Event.outcome c _ => c

/-- The fetch/sleep trace of one `_callGeminiApi` call for chunk `ci`, given
the backoff sleeps it performed: attempt 0, then per backoff sleep one
further attempt.  `UrlFetchApp.fetch` is synchronous, so each request
completes before anything later happens. -/
def chunkTrace (ci : ℕ) (sleeps : List ℕ) : List Event :=
  [Event.request ci 0, Event.outcome ci 0] ++
    sleeps.enum.flatMap fun (j, ms) =>
      [Event.sleep ci ms, Event.request ci (j + 1), Event.outcome ci (j + 1)]

/-- The chunked grading loop (lines 433–515): for each chunk in order,
optionally sleep, call the API, reconcile or fall back, and append.  The
source slices inside the loop; since slicing is pure, the loop is run here
over the slice list `chunksN CHUNK_SIZE problemList`, which is exactly the
sequence of slices the loop computes.  The transport oracle maps
(chunk index, attempt) to a fetch result. -/
def gradeLoop (oracle : ℕ → ℕ → FetchResult) :
    List (List GradableItem) → ℕ → List GradingResult × List Event
  | [], _ => ([], [])
  | chunk :: rest, ci =>
    let pre : List Event := if ci > 0 then [Event.sleep ci 1000] else []
    let call := callGeminiApi (oracle ci)
    let res := interpretOutcome chunk call.1
    let next := gradeLoop oracle rest (ci + 1)
    (res ++ next.1, pre ++ chunkTrace ci call.2 ++ next.2)

/-- Whether the script property `GEMINI_API_KEY` is falsy (`!apiKey`):
absent (`null`) or the empty string. -/
def apiKeyFalsy : Option String → Bool
  | none => true
  | some s => s = ""

/-- `_gradeWithGemini` (lines 375–518): mock path without an API key;
otherwise flatten, return `[]` for an empty list (no network activity), and
run the chunk loop.  Returns the accumulated results and the event trace. -/
def gradeWithGemini (apiKey : Option String) (questions : List Question)
    (answers : AnswerSet) (oracle : ℕ → ℕ → FetchResult) :
    List GradingResult × List Event :=
  if apiKeyFalsy apiKey then (mockResults questions, [])
  else
    let problemList := flattenProblems questions answers
    if problemList.isEmpty then ([], [])
    else gradeLoop oracle (chunksN CHUNK_SIZE problemList) 0

/-! ## Definitions used to state the claims -/

/-- The retryable attempt failures per the source: a thrown transport error
(line 548), HTTP 429, or HTTP 5xx (line 588). -/
def isRetryable : FetchResult → Bool
  | FetchResult.err _ => true
  | FetchResult.resp code _ => code = 429 || (500 ≤ code && code < 600)

/-- The extraction chain as the specification words it (§4.5 step 4): after
a failed direct parse, locate the outermost bracketed substring and reparse
it; only if that still fails, retry once more with backslashes doubled.
Stated for comparison against the source-derived `extractFromText`. -/
def specExtractChain (text : String) : Option Json :=
  let jsonStr := stripFences text
  match jsParse jsonStr with
  | some v => some v
  | none =>
    match bracketMatch jsonStr with
    | some sub =>
      match jsParse sub with
      | some v => some v
      | none =>
        match jsParse (doubleBackslashes sub) with
        | some v => some v
        | none => none
    | none => none

/-- Batch fan-out shape of a trace: no request is issued after any request
has already completed (all dispatches happen before the first completion is
consumed, as in a concurrent fanned-out batch). -/
def batchFanOutAux : Bool → List Event → Bool
  | _, [] => true
  | seen, Event.request _ _ :: es => if seen then false else batchFanOutAux seen es
  | _, Event.outcome _ _ :: es => batchFanOutAux true es
  | seen, Event.sleep _ _ :: es => batchFanOutAux seen es

/-- Whether a trace is a concurrent fan-out batch. -/
def batchFanOut (tr : List Event) : Bool := batchFanOutAux false tr

/-- A raw result that survives the reconciliation mapping: an object whose
`index` field is a number that is a whole number within `[0, chunk.length)`. -/
def validRawIndex (chunk : List GradableItem) (r : Json) : Bool :=
  match r with
  | Json.obj fs =>
    match lookupField fs "index" with
    | some (Json.num q) => decide (0 ≤ q) && decide (q < (chunk.length : ℚ)) && decide (q.den = 1)
    | _ => false
  | _ => false

/-! ### Concrete fixtures for witnesses and counterexamples -/

/-- A plain question worth 10 points. -/
def cQ1 : Question :=
  { id := "Q1", text := "unit of current?", points := 10, criteria := "A or Ampere",
    subQuestions := [] }

/-- An answer set answering `cQ1`. -/
def cAns1 : AnswerSet := [("Q1", AnswerVal.str "A")]

/-- A 200 response body whose candidate text is the empty JSON array. -/
def cBodyEmpty : String :=
  "\x7b\"candidates\":[\x7b\"content\":\x7b\"parts\":[\x7b\"text\":\"[]\"\x7d]\x7d\x7d]\x7d"

/-- A 200 response body granting score 999 to item 0. -/
def cBody999 : String :=
  "\x7b\"candidates\":[\x7b\"content\":\x7b\"parts\":[\x7b\"text\":\"[\x7b\\\"index\\\":0,\\\"score\\\":999,\\\"reason\\\":\\\"x\\\"\x7d]\"\x7d]\x7d\x7d]\x7d"

/-- Six plain questions (two chunks of sizes 5 and 1). -/
def cQs6 : List Question :=
  [{ id := "Q1", text := "t1", points := 10, criteria := "", subQuestions := [] },
   { id := "Q2", text := "t2", points := 10, criteria := "", subQuestions := [] },
   { id := "Q3", text := "t3", points := 10, criteria := "", subQuestions := [] },
   { id := "Q4", text := "t4", points := 10, criteria := "", subQuestions := [] },
   { id := "Q5", text := "t5", points := 10, criteria := "", subQuestions := [] },
   { id := "Q6", text := "t6", points := 10, criteria := "", subQuestions := [] }]

/-- The flattened items of `cQs6` with no answers given. -/
def cItems6 : List GradableItem := flattenProblems cQs6 []

/-- An oracle that always returns a 200 response with an empty result array. -/
def cOracleEmpty : ℕ → ℕ → FetchResult := fun _ _ => FetchResult.resp 200 cBodyEmpty

/-- An oracle that always returns HTTP 500. -/
def cFetch500 : ℕ → FetchResult := fun _ => FetchResult.resp 500 "ise"

/-- The candidate text used to separate the source's recovery chain from the
spec's: direct parse fails on the leading `x`; the bracketed substring
`["a\b"]` parses directly to the one-character-escape string, but parses to
a literal backslash-b after backslash doubling. -/
def cEscText : String := "x[\"a\\b\"]"

/-- The score-999 raw result object. -/
def cFs999 : List (String × Json) :=
  [("index", Json.num 0), ("score", Json.num 999), ("reason", Json.str "x")]

/-- The grading result mapped from `cFs999` for `cQ1`. -/
def cG999 : GradingResult :=
  { questionId := "Q1", subQuestionId := none, score := 999, reason := Json.str "x" }

/-- A raw result list with one valid entry and one non-object entry. -/
def cRsW : List Json :=
  [Json.obj [("index", Json.num 0), ("score", Json.num 7)], Json.num 5]

/-- The mapped output of `cRsW` against the flattened `cQ1` chunk. -/
def cOutW : List GradingResult :=
  [{ questionId := "Q1", subQuestionId := none, score := 7, reason := Json.str "" }]

/-! # Theorems -/

/-- Claim C10: in mock mode (no API key) the grading result is a function of
the questions only — the answer set (and the transport) is never consulted,
so an unanswered item scores the same as an answered one. -/
theorem mock_ignores_answers :
    ∀ (questions : List Question) (a1 a2 : AnswerSet)
      (o1 o2 : ℕ → ℕ → FetchResult),
      gradeWithGemini none questions a1 o1 = gradeWithGemini none questions a2 o2 :=
  fun _ _ _ _ _ => rfl

/-- The mock path scores exactly the flattened items, in order. -/
theorem mockResults_eq_map_flatten (questions : List Question) (answers : AnswerSet) :
    mockResults questions = (flattenProblems questions answers).map fun p =>
      { questionId := p.qId
        subQuestionId := p.sqId
        score := (Rat.floor (p.points * 0.8) : ℚ)
        reason := Json.str
          (if p.type = "sub" then "(Mock) Sub-question graded." else "(Mock) Graded.") } := by
  induction questions with
  | nil => rfl
  | cons q qs ih =>
    simp only [mockResults, flattenProblems, List.flatMap_cons, List.map_append] at *
    rw [ih]
    congr 1
    by_cases h : q.subQuestions.length > 0
    · simp only [h, if_pos, List.map_map]
      apply List.map_congr_left
      intro sq _
      simp
    · simp [h]

/-- Claim C5: with no API key configured, grading makes zero network calls
(the event trace is empty) and every flattened item receives
`floor(points * 0.8)` of its own points with a mock-mode reason. -/
theorem mock_mode_scoring :
    ∀ (questions : List Question) (answers : AnswerSet) (oracle : ℕ → ℕ → FetchResult),
      (gradeWithGemini none questions answers oracle).2 = [] ∧
      (gradeWithGemini none questions answers oracle).1 =
        ((flattenProblems questions answers).map fun p =>
          { questionId := p.qId
            subQuestionId := p.sqId
            score := (Rat.floor (p.points * 0.8) : ℚ)
            reason := Json.str
              (if p.type = "sub" then "(Mock) Sub-question graded." else "(Mock) Graded.") }) := by
  intro questions answers oracle
  refine ⟨rfl, ?_⟩
  show mockResults questions = _
  exact mockResults_eq_map_flatten questions answers

/-- Claim C8 (amended): the recovery chain of the source first attempts a
direct parse of the fence-stripped text; on failure it reparses the
outermost bracketed substring only once, with every backslash doubled —
there is no plain reparse of the substring before doubling. -/
theorem extractor_chain_amended :
    ∀ text : String,
      (∀ v, jsParse (stripFences text) = some v → extractFromText text = some v) ∧
      (jsParse (stripFences text) = none →
        extractFromText text =
          (match bracketMatch (stripFences text) with
           | some sub => jsParse (doubleBackslashes sub)
           | none => none)) := by
  intro text
  constructor
  · intro v h
    simp only [extractFromText, h]
  · intro h
    simp only [extractFromText, h]
    cases bracketMatch (stripFences text) with
    | none => rfl
    | some sub =>
      show (match jsParse (doubleBackslashes sub) with
            | some v => some v
            | none => none) = jsParse (doubleBackslashes sub)
      cases jsParse (doubleBackslashes sub) <;> rfl

/-- Claim C8 counterexample: on `x["a\b"]` the direct parse fails and the
bracketed substring `["a\b"]` is valid JSON, so the spec's chain (plain
reparse first) returns the string with a backspace escape — but the source
parses only the backslash-doubled substring and returns a literal
backslash-b string.  The two chains disagree. -/
theorem extractor_order_cex :
    extractFromText cEscText = some (Json.arr [Json.str "a\\b"]) ∧
    specExtractChain cEscText = some (Json.arr [Json.str (String.mk ['a', Char.ofNat 8])]) ∧
    extractFromText cEscText ≠ specExtractChain cEscText := by
  refine ⟨by with_unfolding_all rfl, by with_unfolding_all rfl, ?_⟩
  intro h
  rw [show extractFromText cEscText = some (Json.arr [Json.str "a\\b"]) from by
        with_unfolding_all rfl,
      show specExtractChain cEscText = some (Json.arr [Json.str (String.mk ['a', Char.ofNat 8])])
        from by with_unfolding_all rfl] at h
  simp [String.mk] at h

/-- Witness for the amended C8 chain at concrete inputs: a fenced direct
parse success, and the doubled-substring path on `cEscText`. -/
theorem extractor_chain_witness :
    (jsParse (stripFences "```json\n[1]\n```") = some (Json.arr [Json.num 1]) ∧
      extractFromText "```json\n[1]\n```" = some (Json.arr [Json.num 1])) ∧
    (jsParse (stripFences cEscText) = none ∧
      extractFromText cEscText =
        (match bracketMatch (stripFences cEscText) with
         | some sub => jsParse (doubleBackslashes sub)
         | none => none)) :=
  ⟨⟨by with_unfolding_all rfl,
    (extractor_chain_amended "```json\n[1]\n```").1 _ (by with_unfolding_all rfl)⟩,
   ⟨by with_unfolding_all rfl,
    (extractor_chain_amended cEscText).2 (by with_unfolding_all rfl)⟩⟩

/-- The backoff sleeps of the retry loop: each doubles the previous, the
first is `2 ^ (rc + 1) * 1000` ms, and at most `MAX_RETRIES - rc` are
performed. -/
theorem callGo_sleeps (fetch : ℕ → FetchResult) :
    ∀ fuel rc,
      List.Chain' (fun a b => b = 2 * a) (callGeminiApiGo fetch fuel rc).2 ∧
      (∀ x, (callGeminiApiGo fetch fuel rc).2.head? = some x → x = 2 ^ (rc + 1) * 1000) ∧
      (callGeminiApiGo fetch fuel rc).2.length ≤ MAX_RETRIES - rc := by
  intro fuel
  induction fuel with
  | zero => intro rc; simp [callGeminiApiGo]
  | succ fuel ih =>
    intro rc
    by_cases hrc : rc ≥ MAX_RETRIES
    · cases hf : fetch rc with
      | err msg => simp [callGeminiApiGo, hf, hrc]
      | resp code body =>
        by_cases h200 : code = 200
        · simp [callGeminiApiGo, hf, h200]
        · by_cases hr : code = 429 ∨ (500 ≤ code ∧ code < 600)
          · simp [callGeminiApiGo, hf, h200, hr, hrc]
          · simp [callGeminiApiGo, hf, h200, hr]
    · obtain ⟨ch, hd, len⟩ := ih (rc + 1)
      have consCase :
          List.Chain' (fun a b => b = 2 * a)
            (2 ^ (rc + 1) * 1000 :: (callGeminiApiGo fetch fuel (rc + 1)).2) ∧
          (∀ x, (2 ^ (rc + 1) * 1000 :: (callGeminiApiGo fetch fuel (rc + 1)).2).head? = some x →
            x = 2 ^ (rc + 1) * 1000) ∧
          (2 ^ (rc + 1) * 1000 :: (callGeminiApiGo fetch fuel (rc + 1)).2).length ≤
            MAX_RETRIES - rc := by
        refine ⟨?_, ?_, ?_⟩
        · rw [List.chain'_cons']
          refine ⟨?_, ch⟩
          intro b hb
          have hb' : (callGeminiApiGo fetch fuel (rc + 1)).2.head? = some b :=
            Option.mem_def.mp hb
          rw [hd b hb']
          ring
        · intro x hx
          simp only [List.head?_cons, Option.some.injEq] at hx
          omega
        · simp only [List.length_cons]
          simp only [MAX_RETRIES] at *
          omega
      cases hf : fetch rc with
      | err msg =>
        simpa [callGeminiApiGo, hf, hrc] using consCase
      | resp code body =>
        by_cases h200 : code = 200
        · simp [callGeminiApiGo, hf, h200]
        · by_cases hr : code = 429 ∨ (500 ≤ code ∧ code < 600)
          · simpa [callGeminiApiGo, hf, h200, hr, hrc] using consCase
          · simp [callGeminiApiGo, hf, h200, hr]

/-- Claim C7 (amended): the backoff between consecutive retry attempts of
one request is the deterministic exponential sequence `2 ^ k * 1000` ms,
doubling per attempt and starting at 2000 ms, with no random jitter; at
most `MAX_RETRIES = 3` retries are performed. -/
theorem backoff_deterministic_amended :
    ∀ fetch : ℕ → FetchResult,
      List.Chain' (fun a b => b = 2 * a) (callGeminiApi fetch).2 ∧
      (∀ x, (callGeminiApi fetch).2.head? = some x → x = 2 ^ 1 * 1000) ∧
      (callGeminiApi fetch).2.length ≤ MAX_RETRIES :=
  fun fetch => callGo_sleeps fetch (MAX_RETRIES + 1) 0

/-- Claim C7 counterexample: no positive jitter is ever added — on a
persistently failing fetch the first backoff is exactly `2 ^ 1 * 1000` ms. -/
theorem backoff_jitter_cex :
    ¬ ∃ j : ℕ, 0 < j ∧ (callGeminiApi cFetch500).2.head? = some (2 ^ 1 * 1000 + j) := by
  rintro ⟨j, hj, h⟩
  rw [show (callGeminiApi cFetch500).2.head? = some 2000 from by with_unfolding_all rfl] at h
  simp only [Option.some.injEq] at h
  omega

/-- Witness for the amended C7 statement on the persistently failing
fetch: the sleep sequence is `[2000, 4000, 8000]`. -/
theorem backoff_witness :
    (callGeminiApi cFetch500).2 = [2000, 4000, 8000] ∧
    (2000 : ℕ) = 2 ^ 1 * 1000 ∧
    List.Chain' (fun a b => b = 2 * a) (callGeminiApi cFetch500).2 ∧
    (callGeminiApi cFetch500).2.length ≤ MAX_RETRIES :=
  ⟨by with_unfolding_all rfl,
   (backoff_deterministic_amended cFetch500).2.1 2000 (by with_unfolding_all rfl),
   (backoff_deterministic_amended cFetch500).1,
   (backoff_deterministic_amended cFetch500).2.2⟩

/-- Claim C6: an attempt is retried exactly when it fails with a transport
error, HTTP 429 or HTTP 5xx (and the retry budget is not exhausted); HTTP
200 is handled without retry; any other status fails immediately as a plain
`httpFail` with no retry and no backoff; and when a retryable failure hits
the retry cap the outcome is a terminal exhaustion marker distinct from the
ordinary non-200 failure. -/
theorem retry_classification :
    ∀ (fetch : ℕ → FetchResult) (fuel rc code : ℕ) (body : String),
      (fetch rc = FetchResult.resp code body → code ≠ 200 → isRetryable (fetch rc) = false →
        callGeminiApiGo fetch (fuel + 1) rc = (ApiOutcome.httpFail code body, [])) ∧
      (fetch rc = FetchResult.resp 200 body →
        callGeminiApiGo fetch (fuel + 1) rc = (handle200 body, [])) ∧
      (isRetryable (fetch rc) = true → rc < MAX_RETRIES →
        callGeminiApiGo fetch (fuel + 1) rc =
          ((callGeminiApiGo fetch fuel (rc + 1)).1,
            2 ^ (rc + 1) * 1000 :: (callGeminiApiGo fetch fuel (rc + 1)).2)) ∧
      (isRetryable (fetch rc) = true → MAX_RETRIES ≤ rc →
        ((∃ m, callGeminiApiGo fetch (fuel + 1) rc = (ApiOutcome.transportFail m, [])) ∨
         (∃ c b, callGeminiApiGo fetch (fuel + 1) rc = (ApiOutcome.retryExhausted c b, []))) ∧
        (∀ c b, (callGeminiApiGo fetch (fuel + 1) rc).1 ≠ ApiOutcome.httpFail c b)) := by
  intro fetch fuel rc code body
  refine ⟨?_, ?_, ?_, ?_⟩
  · intro hf h200 hnr
    rw [hf] at hnr
    simp only [isRetryable, Bool.or_eq_false_iff, decide_eq_false_iff_not,
      Bool.and_eq_false_iff] at hnr
    have hnr' : ¬ (code = 429 ∨ (500 ≤ code ∧ code < 600)) := by
      rcases hnr with ⟨h1, h2⟩
      rcases h2 with h2 | h2 <;> simp at h2 <;> omega
    simp [callGeminiApiGo, hf, h200, hnr']
  · intro hf
    simp [callGeminiApiGo, hf]
  · intro hr hlt
    have hrc : ¬ (rc ≥ MAX_RETRIES) := by omega
    cases hf : fetch rc with
    | err msg => simp [callGeminiApiGo, hf, hrc]
    | resp c b =>
      rw [hf] at hr
      simp only [isRetryable, Bool.or_eq_true, decide_eq_true_eq, Bool.and_eq_true] at hr
      have hr' : c = 429 ∨ (500 ≤ c ∧ c < 600) := by
        rcases hr with h | h
        · exact Or.inl h
        · exact Or.inr h
      have h200 : ¬ (c = 200) := by omega
      simp [callGeminiApiGo, hf, h200, hr', hrc]
  · intro hr hge
    have hrc : rc ≥ MAX_RETRIES := hge
    cases hf : fetch rc with
    | err msg =>
      constructor
      · exact Or.inl ⟨msg, by simp [callGeminiApiGo, hf, hrc]⟩
      · intro c b
        simp [callGeminiApiGo, hf, hrc]
    | resp c b =>
      rw [hf] at hr
      simp only [isRetryable, Bool.or_eq_true, decide_eq_true_eq, Bool.and_eq_true] at hr
      have hr' : c = 429 ∨ (500 ≤ c ∧ c < 600) := by
        rcases hr with h | h
        · exact Or.inl h
        · exact Or.inr h
      have h200 : ¬ (c = 200) := by omega
      constructor
      · exact Or.inr ⟨c, b, by simp [callGeminiApiGo, hf, h200, hr', hrc]⟩
      · intro c' b'
        simp [callGeminiApiGo, hf, h200, hr', hrc]

/-- Witness for C6 at concrete inputs: a 400 response fails immediately
with no backoff, a 200 response is handled directly, a 429 retries, and a
transport error at the cap yields the exhaustion marker. -/
theorem retry_classification_witness :
    (callGeminiApiGo (fun _ => FetchResult.resp 400 "bad") (MAX_RETRIES + 1) 0 =
      (ApiOutcome.httpFail 400 "bad", [])) ∧
    (callGeminiApiGo (fun _ => FetchResult.resp 200 cBodyEmpty) (MAX_RETRIES + 1) 0 =
      (handle200 cBodyEmpty, [])) ∧
    (callGeminiApiGo (fun _ => FetchResult.resp 429 "r") (MAX_RETRIES + 1) 0 =
      ((callGeminiApiGo (fun _ => FetchResult.resp 429 "r") MAX_RETRIES 1).1,
        2 ^ 1 * 1000 :: (callGeminiApiGo (fun _ => FetchResult.resp 429 "r") MAX_RETRIES 1).2)) ∧
    (((∃ m, callGeminiApiGo (fun _ => FetchResult.err "boom") 1 MAX_RETRIES =
          (ApiOutcome.transportFail m, [])) ∨
      (∃ c b, callGeminiApiGo (fun _ => FetchResult.err "boom") 1 MAX_RETRIES =
          (ApiOutcome.retryExhausted c b, []))) ∧
      (∀ c b, (callGeminiApiGo (fun _ => FetchResult.err "boom") 1 MAX_RETRIES).1 ≠
          ApiOutcome.httpFail c b)) :=
  ⟨(retry_classification (fun _ => FetchResult.resp 400 "bad") MAX_RETRIES 0 400 "bad").1
      rfl (by decide) (by with_unfolding_all rfl),
   (retry_classification (fun _ => FetchResult.resp 200 cBodyEmpty) MAX_RETRIES 0 200
      cBodyEmpty).2.1 rfl,
   (retry_classification (fun _ => FetchResult.resp 429 "r") MAX_RETRIES 0 429 "r").2.2.1
      (by with_unfolding_all rfl) (by decide),
   (retry_classification (fun _ => FetchResult.err "boom") 0 MAX_RETRIES 0 "").2.2.2
      (by with_unfolding_all rfl) (by decide)⟩

/-- Chunking the empty list gives no chunks, for any fuel. -/
theorem chunkAux_nil {α : Type} (n fuel : ℕ) : chunkAux (α := α) n fuel [] = [] := by
  cases fuel <;> rfl

/-- The chunks concatenate back to the original list. -/
theorem chunkAux_flatten {α : Type} (n : ℕ) (hn : 0 < n) :
    ∀ (fuel : ℕ) (l : List α), l.length ≤ fuel → (chunkAux n fuel l).flatten = l := by
  intro fuel
  induction fuel with
  | zero =>
    intro l hl
    have : l = [] := List.length_eq_zero.mp (Nat.le_zero.mp hl)
    subst this; rfl
  | succ fuel ih =>
    intro l hl
    cases l with
    | nil => rfl
    | cons a as =>
      simp only [chunkAux, List.flatten_cons]
      rw [ih _ (by simp only [List.length_drop]; simp at hl ⊢; omega)]
      exact List.take_append_drop n (a :: as)

/-- The number of chunks is `⌈length / n⌉`. -/
theorem chunkAux_length {α : Type} (n : ℕ) (hn : 0 < n) :
    ∀ (fuel : ℕ) (l : List α), l.length ≤ fuel →
      (chunkAux n fuel l).length = (l.length + n - 1) / n := by
  intro fuel
  induction fuel with
  | zero =>
    intro l hl
    have : l = [] := List.length_eq_zero.mp (Nat.le_zero.mp hl)
    subst this
    simp [chunkAux, Nat.div_eq_of_lt (by omega : n - 1 < n)]
  | succ fuel ih =>
    intro l hl
    cases l with
    | nil =>
      simp only [chunkAux, List.length_nil]
      exact (Nat.div_eq_of_lt (by omega)).symm
    | cons a as =>
      have hdrop : ((a :: as).drop n).length ≤ fuel := by
        simp only [List.length_drop, List.length_cons]
        simp only [List.length_cons] at hl
        omega
      simp only [chunkAux, List.length_cons, ih _ hdrop, List.length_drop]
      by_cases hLn : as.length + 1 ≤ n
      · have h0 : as.length + 1 - n = 0 := by omega
        rw [h0]
        have h1 : (0 + n - 1) / n = 0 := Nat.div_eq_of_lt (by omega)
        have h2 : (as.length + 1 + n - 1) / n = 1 :=
          Nat.div_eq_of_lt_le (by omega) (by omega)
        omega
      · have heq : as.length + 1 + n - 1 = (as.length + 1 - n + n - 1) + n := by omega
        rw [heq, Nat.add_div_right _ hn]

/-- Every chunk has at most `n` elements. -/
theorem chunkAux_mem_le {α : Type} (n : ℕ) :
    ∀ (fuel : ℕ) (l : List α) (c : List α), c ∈ chunkAux n fuel l → c.length ≤ n := by
  intro fuel
  induction fuel with
  | zero => intro l c hc; simp [chunkAux] at hc
  | succ fuel ih =>
    intro l c hc
    cases l with
    | nil => simp [chunkAux] at hc
    | cons a as =>
      simp only [chunkAux, List.mem_cons] at hc
      rcases hc with hc | hc
      · subst hc; exact List.length_take_le n _
      · exact ih _ _ hc

/-- Every chunk except possibly the last has exactly `n` elements. -/
theorem chunkAux_dropLast {α : Type} (n : ℕ) (hn : 0 < n) :
    ∀ (fuel : ℕ) (l : List α) (c : List α), l.length ≤ fuel →
      c ∈ (chunkAux n fuel l).dropLast → c.length = n := by
  intro fuel
  induction fuel with
  | zero => intro l c _ hc; simp [chunkAux] at hc
  | succ fuel ih =>
    intro l c hl hc
    cases l with
    | nil => simp [chunkAux] at hc
    | cons a as =>
      simp only [chunkAux] at hc
      cases hr : chunkAux n fuel ((a :: as).drop n) with
      | nil => rw [hr] at hc; simp at hc
      | cons b bs =>
        rw [hr] at hc
        rw [List.dropLast_cons₂] at hc
        rcases List.mem_cons.mp hc with hc | hc
        · subst hc
          have hdrop : (a :: as).drop n ≠ [] := by
            intro h
            rw [h, chunkAux_nil] at hr
            exact List.cons_ne_nil _ _ hr.symm
          have hlen : n < (a :: as).length := by
            by_contra h
            exact hdrop (List.drop_eq_nil_of_le (by omega))
          simp only [List.length_take, List.length_cons]
          simp only [List.length_cons] at hlen
          omega
        · have hdl : ((a :: as).drop n).length ≤ fuel := by
            simp only [List.length_drop, List.length_cons]
            simp only [List.length_cons] at hl
            omega
          exact ih _ _ hdl (by rw [hr]; exact hc)

/-- Claim C3: for chunk size `n > 0` (the source uses `CHUNK_SIZE = 5`),
chunking yields `⌈L / n⌉` contiguous groups of size at most `n`, all but
the last of size exactly `n`, whose concatenation is the original list; an
empty flattened list yields zero groups, and grading with an empty
flattened list issues no network request (empty trace). -/
theorem chunk_partitioner_correct :
    ∀ (n : ℕ) (l : List GradableItem) (apiKey : Option String)
      (questions : List Question) (answers : AnswerSet) (oracle : ℕ → ℕ → FetchResult),
      0 < n → apiKeyFalsy apiKey = false → flattenProblems questions answers = [] →
      ((chunksN n l).length = (l.length + n - 1) / n ∧
       (∀ c ∈ chunksN n l, c.length ≤ n) ∧
       (∀ c ∈ (chunksN n l).dropLast, c.length = n) ∧
       (chunksN n l).flatten = l ∧
       chunksN n ([] : List GradableItem) = [] ∧
       gradeWithGemini apiKey questions answers oracle = ([], [])) := by
  intro n l apiKey questions answers oracle hn hkey hflat
  refine ⟨chunkAux_length n hn l.length l le_rfl,
    fun c hc => chunkAux_mem_le n l.length l c hc,
    fun c hc => chunkAux_dropLast n hn l.length l c le_rfl hc,
    chunkAux_flatten n hn l.length l le_rfl,
    rfl, ?_⟩
  simp [gradeWithGemini, hkey, hflat]

/-- Witness for C3 on the six flattened items of `cQs6` with `n = 5`. -/
theorem chunk_partitioner_witness :
    0 < 5 ∧ apiKeyFalsy (some "key") = false ∧
    flattenProblems [] ([] : AnswerSet) = [] ∧
    ((chunksN 5 cItems6).length = (cItems6.length + 5 - 1) / 5 ∧
     (∀ c ∈ chunksN 5 cItems6, c.length ≤ 5) ∧
     (∀ c ∈ (chunksN 5 cItems6).dropLast, c.length = 5) ∧
     (chunksN 5 cItems6).flatten = cItems6 ∧
     chunksN 5 ([] : List GradableItem) = [] ∧
     gradeWithGemini (some "key") [] ([] : AnswerSet) cOracleEmpty = ([], [])) :=
  ⟨by decide, by rfl, by rfl,
   chunk_partitioner_correct 5 cItems6 (some "key") [] [] cOracleEmpty
     (by decide) (by rfl) (by rfl)⟩

/-- Flattened length is the sum over questions of the sub-question count,
or 1 for a question without sub-questions. -/
theorem flatten_length (questions : List Question) (answers : AnswerSet) :
    (flattenProblems questions answers).length =
      (questions.map fun q =>
        if q.subQuestions.isEmpty then 1 else q.subQuestions.length).sum := by
  induction questions with
  | nil => rfl
  | cons q qs ih =>
    simp only [flattenProblems, List.flatMap_cons, List.length_append, List.map_cons,
      List.sum_cons] at ih ⊢
    rw [ih]
    congr 1
    rcases hsq : q.subQuestions with _ | ⟨s, ss⟩ <;> simp [hsq]

/-- The identity projection of the flattened list: question order, then
sub-question order; one entry per sub-question, or one for the question. -/
theorem flatten_ids (questions : List Question) (answers : AnswerSet) :
    ((flattenProblems questions answers).map fun p => (p.qId, p.sqId)) =
      questions.flatMap fun q =>
        if q.subQuestions.isEmpty then [(q.id, (none : Option String))]
        else q.subQuestions.map fun sq => (q.id, some sq.id) := by
  induction questions with
  | nil => rfl
  | cons q qs ih =>
    simp only [flattenProblems, List.flatMap_cons, List.map_append] at ih ⊢
    rw [ih]
    congr 1
    rcases hsq : q.subQuestions with _ | ⟨s, ss⟩ <;>
      simp [hsq, List.map_map, Function.comp]

/-- Items whose question id is missing from the answer set carry the empty
answer. -/
theorem flatten_missing_answer (questions : List Question) (answers : AnswerSet) :
    ∀ p ∈ flattenProblems questions answers,
      lookupAnswer answers p.qId = none → p.studentAnswer = AnswerVal.str "" := by
  induction questions with
  | nil => intro p hp; simp [flattenProblems] at hp
  | cons q qs ih =>
    intro p hp hnone
    simp only [flattenProblems, List.flatMap_cons, List.mem_append] at hp
    rcases hp with hp | hp
    · by_cases h : q.subQuestions.length > 0
      · rw [if_pos h] at hp
        obtain ⟨sq, _, rfl⟩ := List.mem_map.mp hp
        simp only at hnone ⊢
        simp [subAnswer, hnone]
      · rw [if_neg h] at hp
        simp only [List.mem_singleton] at hp
        subst hp
        simp only at hnone ⊢
        simp [hnone]
    · exact ih p hp hnone

/-- Claim C4: flattening preserves question and sub-question order, yields
one item per sub-question (none for the parent) or one per plain question —
`Σ (count of sub-questions, or 1 if none)` items in total — and a missing
answer key degrades to the empty-string answer (the flattener is a total
function, so it never raises). -/
theorem flattener_correct :
    ∀ (questions : List Question) (answers : AnswerSet),
      ((flattenProblems questions answers).length =
        (questions.map fun q =>
          if q.subQuestions.isEmpty then 1 else q.subQuestions.length).sum) ∧
      (((flattenProblems questions answers).map fun it => (it.qId, it.sqId)) =
        questions.flatMap fun q =>
          if q.subQuestions.isEmpty then [(q.id, (none : Option String))]
          else q.subQuestions.map fun sq => (q.id, some sq.id)) ∧
      (∀ p ∈ flattenProblems questions answers,
        lookupAnswer answers p.qId = none → p.studentAnswer = AnswerVal.str "") :=
  fun questions answers =>
    ⟨flatten_length questions answers, flatten_ids questions answers,
     flatten_missing_answer questions answers⟩

/-- The flattened item of `cQ1` with no answers supplied. -/
def cItemQ1 : GradableItem :=
  { type := "normal", qId := "Q1", sqId := none, text := "unit of current?",
    points := 10, criteria := "A or Ampere", studentAnswer := AnswerVal.str "" }

/-- Witness for C4: `cQ1` with an empty answer set — the universal parts
instantiated, and the missing-answer implication discharged at the concrete
flattened item `cItemQ1`. -/
theorem flattener_witness :
    ((flattenProblems [cQ1] ([] : AnswerSet)).length =
      (([cQ1].map fun q =>
        if q.subQuestions.isEmpty then 1 else q.subQuestions.length).sum)) ∧
    (((flattenProblems [cQ1] ([] : AnswerSet)).map fun it => (it.qId, it.sqId)) =
      [cQ1].flatMap fun q =>
        if q.subQuestions.isEmpty then [(q.id, (none : Option String))]
        else q.subQuestions.map fun sq => (q.id, some sq.id)) ∧
    cItemQ1 ∈ flattenProblems [cQ1] ([] : AnswerSet) ∧
    lookupAnswer ([] : AnswerSet) cItemQ1.qId = none ∧
    cItemQ1.studentAnswer = AnswerVal.str "" := by
  have hmem : cItemQ1 ∈ flattenProblems [cQ1] ([] : AnswerSet) := by
    rw [show flattenProblems [cQ1] ([] : AnswerSet) = [cItemQ1] from by with_unfolding_all rfl]
    exact List.mem_singleton.mpr rfl
  exact ⟨(flattener_correct [cQ1] []).1, (flattener_correct [cQ1] []).2.1, hmem, rfl,
    (flattener_correct [cQ1] []).2.2 cItemQ1 hmem rfl⟩

/-- Bind on a successful `Except` computation. -/
theorem exceptBindOk {e a b : Type} (x : a) (f : a → Except e b) :
    (Except.ok x >>= f) = f x := rfl

/-- Bind on a failed `Except` computation. -/
theorem exceptBindErr {e a b : Type} (x : e) (f : a → Except e b) :
    ((Except.error x : Except e a) >>= f) = Except.error x := rfl

/-- `pure` on `Except`. -/
theorem exceptPure {e a : Type} (x : a) : (pure x : Except e a) = Except.ok x := rfl

/-- A raw result maps to `some` grading result exactly when its `index`
field is a whole number within the chunk's range. -/
theorem mapRaw_ok_some (chunk : List GradableItem) (r : Json) (o : Option GradingResult) :
    mapRaw chunk r = Except.ok o → ((∃ g, o = some g) ↔ validRawIndex chunk r = true) := by
  intro h
  cases r with
  | null => simp [mapRaw, jsGet, exceptBindOk, exceptBindErr, exceptPure] at h
  | bool b =>
    simp only [mapRaw, jsGet, exceptBindOk, exceptPure] at h
    simp only [Except.ok.injEq] at h
    subst h
    simp [validRawIndex]
  | num q =>
    simp only [mapRaw, jsGet, exceptBindOk, exceptPure] at h
    simp only [Except.ok.injEq] at h
    subst h
    simp [validRawIndex]
  | str s =>
    simp only [mapRaw, jsGet, exceptBindOk, exceptPure] at h
    simp only [Except.ok.injEq] at h
    subst h
    simp [validRawIndex]
  | arr xs =>
    simp only [mapRaw, jsGet, exceptBindOk, exceptPure] at h
    simp only [Except.ok.injEq] at h
    subst h
    simp [validRawIndex]
  | obj fs =>
    rcases hidx : lookupField fs "index" with _ | v
    · simp only [mapRaw, jsGet, hidx, exceptBindOk, exceptPure, Except.ok.injEq] at h
      subst h
      simp [validRawIndex, hidx]
    · cases v with
      | num q =>
        by_cases hq : q < 0 ∨ (chunk.length : ℚ) ≤ q
        · simp only [mapRaw, jsGet, hidx, exceptBindOk, exceptPure, if_pos hq, Except.ok.injEq] at h
          subst h
          simp only [validRawIndex, hidx]
          rcases hq with hq | hq
          · simp [not_le.mpr hq]
          · simp [not_lt.mpr hq]
        · by_cases hden : q.den = 1
          · cases hget : chunk[q.num.toNat]? with
            | some item =>
              simp only [mapRaw, jsGet, hidx, exceptBindOk, exceptPure, if_neg hq, if_pos hden, hget,
                Except.ok.injEq] at h
              subst h
              push_neg at hq
              simp [validRawIndex, hidx, hq.1, hq.2, hden]
            | none =>
              simp [mapRaw, jsGet, hidx, if_neg hq, if_pos hden, hget, exceptBindOk, exceptBindErr, exceptPure] at h
          · simp [mapRaw, jsGet, hidx, if_neg hq, hden, exceptBindOk, exceptBindErr, exceptPure] at h
      | null =>
        simp only [mapRaw, jsGet, hidx, exceptBindOk, exceptPure, Except.ok.injEq] at h
        subst h
        simp [validRawIndex, hidx]
      | bool b =>
        simp only [mapRaw, jsGet, hidx, exceptBindOk, exceptPure, Except.ok.injEq] at h
        subst h
        simp [validRawIndex, hidx]
      | str s =>
        simp only [mapRaw, jsGet, hidx, exceptBindOk, exceptPure, Except.ok.injEq] at h
        subst h
        simp [validRawIndex, hidx]
      | arr xs =>
        simp only [mapRaw, jsGet, hidx, exceptBindOk, exceptPure, Except.ok.injEq] at h
        subst h
        simp [validRawIndex, hidx]
      | obj fs2 =>
        simp only [mapRaw, jsGet, hidx, exceptBindOk, exceptPure, Except.ok.injEq] at h
        subst h
        simp [validRawIndex, hidx]

/-- When the mapping succeeds, the output has exactly one entry per raw
result with a valid in-range index — not per chunk item. -/
theorem mapChunk_ok_length :
    ∀ (rs : List Json) (chunk : List GradableItem) (out : List GradingResult),
      mapChunk chunk rs = Except.ok out → out.length = rs.countP (validRawIndex chunk) := by
  intro rs
  induction rs with
  | nil =>
    intro chunk out h
    simp only [mapChunk, mapChunkGo, Except.map, Except.ok.injEq] at h
    subst h
    simp
  | cons r rs ih =>
    intro chunk out h
    cases hf : mapRaw chunk r with
    | error e => simp [mapChunk, mapChunkGo, hf, exceptBindErr, Except.map] at h
    | ok o =>
      cases hm : mapChunkGo chunk rs with
      | error e =>
        simp [mapChunk, mapChunkGo, hf, hm, exceptBindOk, exceptBindErr, Except.map] at h
      | ok os =>
        have hrest : mapChunk chunk rs = Except.ok (os.filterMap id) := by
          simp [mapChunk, hm, Except.map]
        have hlen := ih chunk (os.filterMap id) hrest
        simp only [mapChunk, mapChunkGo, hf, hm, exceptBindOk, exceptPure, Except.map,
          Except.ok.injEq] at h
        subst h
        rw [List.countP_cons]
        rcases (mapRaw_ok_some chunk r o hf) with hiff
        by_cases hv : validRawIndex chunk r = true
        · obtain ⟨g, rfl⟩ := hiff.mpr hv
          simp [hlen, hv]
        · have ho : o = none := by
            cases o with
            | none => rfl
            | some g => exact absurd (hiff.mp ⟨g, rfl⟩) hv
          subst ho
          simp only [Bool.not_eq_true] at hv
          simp [hlen, hv]

/-- Claim C1 (amended): on a successful mapping, the reconciliation step
yields exactly one `GradingResult` per raw result whose `index` is a whole
number in `[0, chunk length)` — duplicated valid entries are kept and
unmatched items receive no per-item fallback, so the output length is the
count of valid raw results, not the chunk's item count.  The zero-score
fallback fills the whole chunk only when the chunk's API call or mapping
throws. -/
theorem reconciliation_amended :
    ∀ (chunk : List GradableItem) (rs : List Json) (out : List GradingResult) (msg : String),
      mapChunk chunk rs = Except.ok out →
      out.length = rs.countP (validRawIndex chunk) ∧
      (fallbackChunk chunk msg).length = chunk.length ∧
      (∀ g ∈ fallbackChunk chunk msg, g.score = 0) := by
  intro chunk rs out msg h
  refine ⟨mapChunk_ok_length rs chunk out h, by simp [fallbackChunk], ?_⟩
  intro g hg
  simp only [fallbackChunk, List.mem_map] at hg
  obtain ⟨p, _, rfl⟩ := hg
  rfl

/-- Claim C1 counterexample: a full pipeline run in which the model returns
an empty result array — the chunk has one item but the reconciliation
produces zero `GradingResult`s, violating "output length equals the chunk's
item count". -/
theorem reconciliation_completeness_cex :
    (gradeWithGemini (some "key") [cQ1] cAns1 cOracleEmpty).1.length = 0 ∧
    (flattenProblems [cQ1] cAns1).length = 1 ∧
    (gradeWithGemini (some "key") [cQ1] cAns1 cOracleEmpty).1.length ≠
      (flattenProblems [cQ1] cAns1).length := by
  refine ⟨by with_unfolding_all rfl, by with_unfolding_all rfl, ?_⟩
  rw [show (gradeWithGemini (some "key") [cQ1] cAns1 cOracleEmpty).1.length = 0 from by
        with_unfolding_all rfl,
      show (flattenProblems [cQ1] cAns1).length = 1 from by with_unfolding_all rfl]
  omega

/-- Witness for the amended C1 on a chunk of one item with one valid and
one invalid raw result. -/
theorem reconciliation_witness :
    mapChunk (flattenProblems [cQ1] cAns1) cRsW = Except.ok cOutW ∧
    (cOutW.length = cRsW.countP (validRawIndex (flattenProblems [cQ1] cAns1)) ∧
     (fallbackChunk (flattenProblems [cQ1] cAns1) "m").length =
       (flattenProblems [cQ1] cAns1).length ∧
     (∀ g ∈ fallbackChunk (flattenProblems [cQ1] cAns1) "m", g.score = 0)) :=
  ⟨by with_unfolding_all rfl,
   reconciliation_amended (flattenProblems [cQ1] cAns1) cRsW cOutW "m"
     (by with_unfolding_all rfl)⟩

/-- Claim C9 (amended): the reconciliation coerces the raw score
numerically (`Number(r.score) || 0`, so a missing or non-numeric score
becomes 0) and stores it as is — it is not clamped to the item's points. -/
theorem score_unclamped_amended :
    ∀ (chunk : List GradableItem) (fs : List (String × Json)) (g : GradingResult),
      mapRaw chunk (Json.obj fs) = Except.ok (some g) →
      g.score = jsNumberOr0 (lookupField fs "score") := by
  intro chunk fs g h
  rcases hidx : lookupField fs "index" with _ | v
  · simp [mapRaw, jsGet, hidx, exceptBindOk, exceptBindErr, exceptPure] at h
  · cases v with
    | num q =>
      by_cases hq : q < 0 ∨ (chunk.length : ℚ) ≤ q
      · simp [mapRaw, jsGet, hidx, if_pos hq, exceptBindOk, exceptBindErr, exceptPure] at h
      · by_cases hden : q.den = 1
        · cases hget : chunk[q.num.toNat]? with
          | some item =>
            simp only [mapRaw, jsGet, hidx, exceptBindOk, exceptPure, if_neg hq, if_pos hden, hget,
              Except.ok.injEq, Option.some.injEq] at h
            rw [← h]
          | none => simp [mapRaw, jsGet, hidx, if_neg hq, if_pos hden, hget, exceptBindOk, exceptBindErr, exceptPure] at h
        · simp [mapRaw, jsGet, hidx, if_neg hq, hden, exceptBindOk, exceptBindErr, exceptPure] at h
    | null => simp [mapRaw, jsGet, hidx, exceptBindOk, exceptBindErr, exceptPure] at h
    | bool b => simp [mapRaw, jsGet, hidx, exceptBindOk, exceptBindErr, exceptPure] at h
    | str s => simp [mapRaw, jsGet, hidx, exceptBindOk, exceptBindErr, exceptPure] at h
    | arr xs => simp [mapRaw, jsGet, hidx, exceptBindOk, exceptBindErr, exceptPure] at h
    | obj fs2 => simp [mapRaw, jsGet, hidx, exceptBindOk, exceptBindErr, exceptPure] at h

/-- Claim C9 counterexample: a full pipeline run in which the model returns
score 999 for a 10-point item — the stored score is 999, outside
`[0, points]`; no clamping happens. -/
theorem score_clamping_cex :
    (gradeWithGemini (some "key") [cQ1] cAns1 (fun _ _ => FetchResult.resp 200 cBody999)).1 =
      [cG999] ∧
    (flattenProblems [cQ1] cAns1).map (fun p => p.points) = [10] ∧
    cG999.score = 999 ∧
    ¬ ((999 : ℚ) ≤ 10) := by
  refine ⟨by with_unfolding_all rfl, by with_unfolding_all rfl, rfl, by norm_num⟩

/-- Witness for the amended C9 on the score-999 raw result. -/
theorem score_unclamped_witness :
    mapRaw (flattenProblems [cQ1] cAns1) (Json.obj cFs999) = Except.ok (some cG999) ∧
    cG999.score = jsNumberOr0 (lookupField cFs999 "score") :=
  ⟨by with_unfolding_all rfl,
   score_unclamped_amended (flattenProblems [cQ1] cAns1) cFs999 cG999
     (by with_unfolding_all rfl)⟩

/-- All events of one chunk's call trace carry that chunk's index. -/
theorem chunkTrace_idx (ci : ℕ) (sleeps : List ℕ) :
    ∀ e ∈ chunkTrace ci sleeps, e.chunkIdx = ci := by
  intro e he
  simp only [chunkTrace, List.mem_append, List.mem_cons, List.mem_flatMap,
    List.not_mem_nil, or_false] at he
  rcases he with (rfl | rfl) | ⟨⟨j, ms⟩, _, he⟩
  · rfl
  · rfl
  · simp only [List.mem_cons, List.not_mem_nil, or_false] at he
    rcases he with rfl | rfl | rfl <;> rfl

/-- Constant-prefix append preserves a sorted (`≤`) chain. -/
theorem chain'_le_append (c : ℕ) :
    ∀ (l1 l2 : List ℕ), (∀ x ∈ l1, x = c) → List.Chain' (· ≤ ·) l2 →
      (∀ y ∈ l2, c ≤ y) → List.Chain' (· ≤ ·) (l1 ++ l2) := by
  intro l1
  induction l1 with
  | nil => intro l2 _ h2 _; simpa using h2
  | cons a l1 ih =>
    intro l2 h1 h2 h3
    have ha : a = c := h1 a (by simp)
    rw [List.cons_append, List.chain'_cons']
    refine ⟨?_, ih l2 (fun x hx => h1 x (by simp [hx])) h2 h3⟩
    intro b hb
    have hb' : b ∈ l1 ++ l2 := List.mem_of_mem_head? hb
    rcases List.mem_append.mp hb' with h | h
    · rw [h1 b (List.mem_cons_of_mem a h), ha]
    · rw [ha]; exact h3 b h

/-- The events of the grading loop belong to chunks at or after the start
index, and their chunk indices are non-decreasing along the trace. -/
theorem gradeLoop_trace_chain (oracle : ℕ → ℕ → FetchResult) :
    ∀ (chunks : List (List GradableItem)) (ci : ℕ),
      (∀ e ∈ (gradeLoop oracle chunks ci).2, ci ≤ e.chunkIdx) ∧
      List.Chain' (· ≤ ·) ((gradeLoop oracle chunks ci).2.map Event.chunkIdx) := by
  intro chunks
  induction chunks with
  | nil => intro ci; exact ⟨by simp [gradeLoop], by simp [gradeLoop]⟩
  | cons chunk rest ih =>
    intro ci
    obtain ⟨ihge, ihch⟩ := ih (ci + 1)
    have hpre : ∀ e ∈ (if ci > 0 then [Event.sleep ci 1000] else []), e.chunkIdx = ci := by
      intro e he
      by_cases h : ci > 0 <;> simp [h] at he
      subst he; rfl
    have hloop :
        (gradeLoop oracle (chunk :: rest) ci).2 =
          ((if ci > 0 then [Event.sleep ci 1000] else []) ++
            chunkTrace ci (callGeminiApi (oracle ci)).2) ++
            (gradeLoop oracle rest (ci + 1)).2 := by
      simp [gradeLoop, List.append_assoc]
    constructor
    · intro e he
      rw [hloop] at he
      rcases List.mem_append.mp he with h | h
      · rcases List.mem_append.mp h with h | h
        · exact (hpre e h).ge
        · exact (chunkTrace_idx ci _ e h).ge
      · exact le_of_lt (Nat.lt_of_lt_of_le (Nat.lt_succ_self ci) (ihge e h))
    · rw [hloop, List.map_append]
      apply chain'_le_append ci
      · intro x hx
        simp only [List.map_append, List.mem_append, List.mem_map] at hx
        rcases hx with ⟨e, he, rfl⟩ | ⟨e, he, rfl⟩
        · exact hpre e he
        · exact chunkTrace_idx ci _ e he
      · exact ihch
      · intro y hy
        simp only [List.mem_map] at hy
        obtain ⟨e, he, rfl⟩ := hy
        exact Nat.le_of_succ_le (ihge e he)

/-- The grading loop's results are the concatenation, in order, of each
chunk's outcome interpreted against that chunk — positional alignment of
`GroupOutcome[i]` with `Group[i]`. -/
theorem gradeLoop_results (oracle : ℕ → ℕ → FetchResult) :
    ∀ (chunks : List (List GradableItem)) (ci : ℕ),
      (gradeLoop oracle chunks ci).1 =
        (chunks.enumFrom ci).flatMap fun jc =>
          interpretOutcome jc.2 (callGeminiApi (oracle jc.1)).1 := by
  intro chunks
  induction chunks with
  | nil => intro ci; rfl
  | cons chunk rest ih =>
    intro ci
    simp only [gradeLoop, List.enumFrom, List.flatMap_cons, ih (ci + 1)]

/-- Claim C2 (amended): dispatch is serial, not concurrent — the trace's
chunk indices are non-decreasing (each Group's request is issued only after
every earlier Group's outcome is complete), and the result list is the
in-order concatenation of per-Group outcomes, so outcome `i` corresponds to
Group `i`. -/
theorem serial_dispatch_amended :
    ∀ (apiKey : Option String) (questions : List Question) (answers : AnswerSet)
      (oracle : ℕ → ℕ → FetchResult),
      List.Chain' (· ≤ ·)
        ((gradeWithGemini apiKey questions answers oracle).2.map Event.chunkIdx) ∧
      (apiKeyFalsy apiKey = false → (flattenProblems questions answers).isEmpty = false →
        (gradeWithGemini apiKey questions answers oracle).1 =
          ((chunksN CHUNK_SIZE (flattenProblems questions answers)).enum.flatMap fun jc =>
            interpretOutcome jc.2 (callGeminiApi (oracle jc.1)).1)) := by
  intro apiKey questions answers oracle
  constructor
  · by_cases hk : apiKeyFalsy apiKey = true
    · simp [gradeWithGemini, hk]
    · by_cases hf : (flattenProblems questions answers).isEmpty = true
      · simp [gradeWithGemini, hk, hf]
      · simp only [gradeWithGemini, hk, hf, Bool.false_eq_true, if_false]
        exact (gradeLoop_trace_chain oracle _ 0).2
  · intro hk hf
    simp only [gradeWithGemini, hk, hf, Bool.false_eq_true, if_false]
    rw [gradeLoop_results]
    rfl

/-- Claim C2 counterexample: with six items (two Groups) the run's event
trace completes Group 0's request before Group 1's request is issued — the
trace is not a concurrent fan-out batch. -/
theorem concurrent_fanout_cex :
    (gradeWithGemini (some "key") cQs6 [] cOracleEmpty).2 =
      [Event.request 0 0, Event.outcome 0 0, Event.sleep 1 1000,
       Event.request 1 0, Event.outcome 1 0] ∧
    batchFanOut (gradeWithGemini (some "key") cQs6 [] cOracleEmpty).2 = false :=
  ⟨by with_unfolding_all rfl, by with_unfolding_all rfl⟩

/-- Witness for the amended C2 on the two-chunk run. -/
theorem serial_dispatch_witness :
    apiKeyFalsy (some "key") = false ∧
    (flattenProblems cQs6 []).isEmpty = false ∧
    List.Chain' (· ≤ ·)
      ((gradeWithGemini (some "key") cQs6 [] cOracleEmpty).2.map Event.chunkIdx) ∧
    (gradeWithGemini (some "key") cQs6 [] cOracleEmpty).1 =
      ((chunksN CHUNK_SIZE (flattenProblems cQs6 [])).enum.flatMap fun jc =>
        interpretOutcome jc.2 (callGeminiApi (cOracleEmpty jc.1)).1) :=
  ⟨rfl, by with_unfolding_all rfl,
   (serial_dispatch_amended (some "key") cQs6 [] cOracleEmpty).1,
   (serial_dispatch_amended (some "key") cQs6 [] cOracleEmpty).2 rfl
     (by with_unfolding_all rfl)⟩

end ElecTest
